import Mathlib

/-!
# Verification of the `DataManager` component of the Food_city sales application

This file embeds the record store and query layer of `src/main.py`
(class `DataManager`) into Lean and proves the specification claims about it.

Modelling conventions:
* A pandas `DataFrame` of sales records is a `List SalesRecord`.
* `Quantity`, `UnitPrice`, `Total` are rationals (`ℚ`); pandas floats carry
  no semantic content here beyond arithmetic.
* A raw table (the backing CSV file, or an imported batch) is a `Table`:
  flags recording which of the six required columns are present, plus raw
  rows whose cells may be missing (`none`, pandas `NaN`) or, for the date
  column, present but unparseable (`DateCell.invalid`).
* `pd.to_numeric(errors := coerce)` turns a missing or non-numeric cell into
  `NaN`; both are therefore already represented by `none`.
* `pd.to_datetime` (used in `add_data`, default `errors`) raises on an
  unparseable date cell. `pd.read_csv(parse_dates := [Date])` (used in
  `_load_data`) parses the Date column only as a whole: when every present
  cell parses, the column becomes datetime and a missing cell becomes
  `NaT`; when any cell fails to parse, pandas leaves the entire column
  unaltered as text (object dtype), so no row is dropped for an
  unparseable date — `load_frame` models both outcomes.
* The backing file is modelled at table level (`BackingFile`): CSV text
  serialization is abstracted away, which is exactly the "values may be
  reformatted" allowance of the round-trip contract.
* Python in-place mutation is explicit state passing: `add_data` returns the
  new manager, the boolean result, and the caller's batch after the call.
* `groupby` sorts its group keys (pandas default `sort=True`).
  `sort_values` with its default quicksort leaves the relative order of
  equal-key rows implementation-defined; the model uses a stable insertion
  sort as one admissible outcome, and the theorems assert only sort
  properties that are independent of that choice.
-/

/-- Code-point comparison of character lists: the lexicographic string order
Python uses when pandas sorts string group keys. -/
def charListLe : List Char → List Char → Bool
  | [], _ => true
  | _ :: _, [] => false
  | c :: cs, d :: ds =>
      if c.toNat < d.toNat then true
      else if d.toNat < c.toNat then false
      else charListLe cs ds

def stringLe (a b : String) : Bool := charListLe a.data b.data

structure Date where
  year : Nat
  month : Nat
  day : Nat
deriving DecidableEq, Repr

/-- Lexicographic comparison of dates, the order pandas timestamps obey. -/
def dateLe (a b : Date) : Bool :=
  decide (a.year < b.year ∨ (a.year = b.year ∧
    (a.month < b.month ∨ (a.month = b.month ∧ a.day ≤ b.day))))

/-- Sakamoto's day-of-week table (index 0 = January). -/
def sakamotoOffsets : List Nat := [0, 3, 2, 5, 0, 3, 5, 1, 4, 6, 2, 4]

/-- Day-of-week index of a Gregorian calendar date, 0 = Sunday.
This is the function underlying pandas `Series.dt.day_name()`. -/
def dayOfWeekIndex (d : Date) : Nat :=
  let y := if d.month < 3 then d.year - 1 else d.year
  (y + y / 4 - y / 100 + y / 400 + sakamotoOffsets.getD (d.month - 1) 0 + d.day) % 7

def weekDayNames : List String :=
  ["Sunday", "Monday", "Tuesday", "Wednesday", "Thursday", "Friday", "Saturday"]

/-- `df['Date'].dt.day_name()` for a single date. -/
def dayName (d : Date) : String := weekDayNames.getD (dayOfWeekIndex d) ""

/-- One fully validated sales record (a row of `self.sales_data`). -/
structure SalesRecord where
  date : Date
  branch : String
  product : String
  quantity : ℚ
  unitPrice : ℚ
  total : ℚ
deriving DecidableEq, Repr

/-- A raw date cell before coercion. -/
inductive DateCell where
  | missing
  | invalid
  | val (d : Date)
deriving DecidableEq, Repr

/-- A raw row of an imported batch or of the backing CSV file.
`none` is a missing cell (`NaN`), and for the numeric columns also a cell
that `pd.to_numeric(errors := coerce)` fails to parse. -/
structure RawRow where
  date : DateCell
  branch : Option String
  product : Option String
  quantity : Option ℚ
  unitPrice : Option ℚ
  total : Option ℚ
deriving DecidableEq, Repr

/-- A raw table: which of the six required columns are present, and the rows.
Extra columns are ignored by every `DataManager` operation, so they are not
modelled. -/
structure Table where
  hasDate : Bool
  hasBranch : Bool
  hasProduct : Bool
  hasQuantity : Bool
  hasUnitPrice : Bool
  hasTotal : Bool
  rows : List RawRow
deriving DecidableEq, Repr

/-- `all(col in new_df.columns for col in required_cols)` from `add_data`,
also the condition for the column accesses in `_load_data` not to raise. -/
def requiredColsPresent (t : Table) : Bool :=
  t.hasDate && t.hasBranch && t.hasProduct && t.hasQuantity &&
    t.hasUnitPrice && t.hasTotal

/-- A row that survives `dropna(subset=['Date','Branch','Product','Quantity',
'UnitPrice','Total'])` after coercion. -/
def rowValid (r : RawRow) : Bool :=
  (match r.date with | .val _ => true | _ => false) &&
    r.branch.isSome && r.product.isSome && r.quantity.isSome &&
    r.unitPrice.isSome && r.total.isSome

/-- The validated record extracted from a raw row, when the row is valid. -/
def rowRecord (r : RawRow) : Option SalesRecord :=
  match r.date, r.branch, r.product, r.quantity, r.unitPrice, r.total with
  | .val d, some b, some p, some q, some u, some t => some ⟨d, b, p, q, u, t⟩
  | _, _, _, _, _, _ => none

/-- A date cell on which `pd.to_datetime` (default `errors`) raises. -/
def dateInvalid (r : RawRow) : Bool :=
  match r.date with | .invalid => true | _ => false

/-- A row that survives `dropna` when the Date column was left as text:
only a missing (null) cell drops a row there — a present but unparseable
date string is not null. -/
def rowNonNull (r : RawRow) : Bool :=
  (match r.date with | .missing => false | _ => true) &&
    r.branch.isSome && r.product.isSome && r.quantity.isSome &&
    r.unitPrice.isSome && r.total.isSome

/-- The backing file, at logical-table level. `corrupt` is content on which
`pd.read_csv` itself raises. -/
inductive BackingFile where
  | absent
  | corrupt
  | table (t : Table)
deriving DecidableEq, Repr

/-- The frame `_load_data` produces: either a well-typed dataset whose
Date column parsed to datetime, or the pandas fallback in which
`parse_dates` failed on some cell and the whole Date column — also its
parseable cells — is left as text (object dtype), so the rows keep raw
date cells. -/
inductive LoadedFrame where
  | typed (rows : List SalesRecord)
  | textDates (rows : List RawRow)
deriving DecidableEq, Repr

/-- `DataManager._load_data` (src/main.py lines 20-39), at frame level:
missing file or any exception during read (unreadable content, a required
column absent) gives the empty dataset. Otherwise
`read_csv(parse_dates := [Date])` parses the Date column when every
present cell parses (missing cells become `NaT`), and leaves the whole
column as text when any cell fails to parse; the numeric coercions and the
six-column `dropna` run in both cases. In the text fallback `dropna`
removes only rows with a missing (null) cell: a row with an unparseable
date string is returned, not dropped. -/
def load_frame : BackingFile → LoadedFrame
  | .absent => .typed []
  | .corrupt => .typed []
  | .table t =>
      if !requiredColsPresent t then .typed []
      else if t.rows.any dateInvalid then
        .textDates (t.rows.filter rowNonNull)
      else .typed (t.rows.filterMap rowRecord)

/-- The typed projection of the loaded frame, stored in `sales_data`. The
text-dates fallback frame is not representable as `List SalesRecord` (its
date values are strings); this projection maps it to the empty dataset.
Every theorem about loading either excludes the fallback explicitly
(`rows.any dateInvalid = false`, stating the fallback separately through
`load_frame`) or — the round-trip equations — holds for every file because
a persisted file never parses into the fallback. -/
def load_data (f : BackingFile) : List SalesRecord :=
  match load_frame f with
  | .typed rows => rows
  | .textDates _ => []

/-- The in-memory state of a `DataManager`: `self.sales_data` plus the
backing file `self.data_file` points at. -/
structure DataManager where
  sales_data : List SalesRecord
  data_file : BackingFile
deriving DecidableEq, Repr

/-- `DataManager.__init__`: load the dataset from the backing file. -/
def DataManager.init (f : BackingFile) : DataManager :=
  ⟨load_data f, f⟩

/-- Serialization of one record to a CSV row: every field present. -/
def recordRaw (r : SalesRecord) : RawRow :=
  ⟨.val r.date, some r.branch, some r.product, some r.quantity,
    some r.unitPrice, some r.total⟩

/-- `to_csv` of a dataset: a table with all six columns. -/
def encodeFile (ds : List SalesRecord) : BackingFile :=
  .table ⟨true, true, true, true, true, true, ds.map recordRaw⟩

/-- `DataManager._save_data` (lines 69-74): write the current dataset to the
backing file. (The I/O-failure branch only shows a message box and changes
no state; it is not modelled.) -/
def save_data (dm : DataManager) : DataManager :=
  { dm with data_file := encodeFile dm.sales_data }

/-- `DataManager.add_data` (lines 41-67). Returns the new manager state, the
boolean result, and the caller's batch as the in-place mutations
(`new_df[...] = ...`, `dropna(inplace=True)`) leave it. -/
def add_data (dm : DataManager) (new_df : Table) : DataManager × Bool × Table :=
  if !requiredColsPresent new_df then
    (dm, false, new_df)
  else if new_df.rows.any dateInvalid then
    -- pd.to_datetime raises before any column is assigned; the except
    -- branch returns False with nothing mutated.
    (dm, false, new_df)
  else
    let coerced : Table := { new_df with rows := new_df.rows.filter rowValid }
    if coerced.rows.isEmpty then
      (dm, false, coerced)
    else
      (save_data { dm with
        sales_data := dm.sales_data ++ coerced.rows.filterMap rowRecord },
       true, coerced)

/-- `if branch and branch != "All Branches": df = df[df['Branch'] == branch]`.
The empty string is falsy in Python, hence the extra test. -/
def branchFilter (branch : Option String) (df : List SalesRecord) :
    List SalesRecord :=
  match branch with
  | some b =>
      if b != "" && b != "All Branches" then
        df.filter (fun r => r.branch == b)
      else df
  | none => df

/-- `if year: df = df[df['Date'].dt.year == year]` (0 is falsy in Python). -/
def yearFilter (year : Option Nat) (df : List SalesRecord) :
    List SalesRecord :=
  match year with
  | some y => if y != 0 then df.filter (fun r => r.date.year == y) else df
  | none => df

/-- `if month: df = df[df['Date'].dt.month == month]`. -/
def monthFilter (month : Option Nat) (df : List SalesRecord) :
    List SalesRecord :=
  match month with
  | some m => if m != 0 then df.filter (fun r => r.date.month == m) else df
  | none => df

/-- Inclusive date-range mask `(df['Date'] >= start) & (df['Date'] <= end)`. -/
def inRange (s e : Date) (r : SalesRecord) : Bool :=
  dateLe s r.date && dateLe r.date e

/-- `if date_range: start, end = date_range; df = df[(df['Date'] >= start) &
(df['Date'] <= end)]`. -/
def rangeFilter (dr : Option (Date × Date)) (df : List SalesRecord) :
    List SalesRecord :=
  match dr with
  | some (s, e) => df.filter (inRange s e)
  | none => df

/-- `drop_duplicates` / the distinct group keys of a pandas `groupby`,
keeping first occurrences. -/
def dropDupGo {α : Type} [DecidableEq α] (seen : List α) :
    List α → List α
  | [] => []
  | x :: xs =>
      if x ∈ seen then dropDupGo seen xs
      else x :: dropDupGo (x :: seen) xs

def dropDuplicates {α : Type} [DecidableEq α] (l : List α) : List α :=
  dropDupGo [] l

/-- pandas `groupby` sorts its group keys (default `sort=True`). -/
def sortStrings (l : List String) : List String :=
  List.insertionSort (fun a b => stringLe a b = true) l

def sumQ (df : List SalesRecord) : ℚ := (df.map SalesRecord.quantity).sum

def sumU (df : List SalesRecord) : ℚ := (df.map SalesRecord.unitPrice).sum

def sumT (df : List SalesRecord) : ℚ := (df.map SalesRecord.total).sum

/-- `df[df['Product'] == p]`. -/
def productGroup (df : List SalesRecord) (p : String) : List SalesRecord :=
  df.filter (fun r => r.product == p)

/-- One output row of `get_monthly_sales`. -/
structure MonthlyRow where
  product : String
  quantity : ℚ
  unitPrice : ℚ
  total : ℚ
deriving DecidableEq, Repr

/-- `df.groupby('Product').agg(Quantity=sum, UnitPrice=mean, Total=sum)
.reset_index()`: group keys in sorted order, one aggregate row each. -/
def monthlyAgg (df : List SalesRecord) : List MonthlyRow :=
  (sortStrings (dropDuplicates (df.map SalesRecord.product))).map
    (fun p =>
      ⟨p, sumQ (productGroup df p),
        sumU (productGroup df p) / ((productGroup df p).length : ℚ),
        sumT (productGroup df p)⟩)

def monthlyFiltered (dm : DataManager) (branch : Option String)
    (year month : Option Nat) : List SalesRecord :=
  monthFilter month (yearFilter year (branchFilter branch dm.sales_data))

/-- `DataManager.get_monthly_sales` (lines 90-114). -/
def get_monthly_sales (dm : DataManager) (branch : Option String)
    (year month : Option Nat) : List MonthlyRow × DataManager :=
  if dm.sales_data.isEmpty then ([], dm)
  else
    let df := monthlyFiltered dm branch year month
    if df.isEmpty then ([], dm) else (monthlyAgg df, dm)

/-- `DataManager.get_product_price_history` (lines 116-125): filter by exact
product, project to (Date, UnitPrice), drop duplicate pairs, sort by date. -/
def get_product_price_history (dm : DataManager) (product_name : String) :
    List (Date × ℚ) × DataManager :=
  if dm.sales_data.isEmpty then ([], dm)
  else
    (List.insertionSort (fun a b : Date × ℚ => dateLe a.1 b.1 = true)
      (dropDuplicates
        ((dm.sales_data.filter (fun r => r.product == product_name)).map
          (fun r => (r.date, r.unitPrice)))), dm)

def weekDays : List String :=
  ["Monday", "Tuesday", "Wednesday", "Thursday", "Friday", "Saturday",
   "Sunday"]

def zeroWeek : List (String × ℚ) := weekDays.map (fun d => (d, 0))

/-- `df.groupby('DayOfWeek')['Total'].sum()`: per present day name (sorted
group keys), the total of the matching rows. -/
def groupDaySum (df : List SalesRecord) : List (String × ℚ) :=
  (sortStrings (dropDuplicates (df.map (fun r => dayName r.date)))).map
    (fun d => (d, sumT (df.filter (fun r => dayName r.date == d))))

/-- `.reindex([Monday..Sunday], fill_value=0)`. -/
def reindexWeek (g : List (String × ℚ)) : List (String × ℚ) :=
  weekDays.map (fun d => (d, (g.lookup d).getD 0))

/-- `DataManager.get_weekly_sales` (lines 127-146). -/
def get_weekly_sales (dm : DataManager) (start_date end_date : Date)
    (branch : Option String) : List (String × ℚ) × DataManager :=
  if dm.sales_data.isEmpty then (zeroWeek, dm)
  else
    let df := branchFilter branch
      (dm.sales_data.filter (inRange start_date end_date))
    if df.isEmpty then (zeroWeek, dm)
    else (reindexWeek (groupDaySum df), dm)

/-- One output row of `get_product_preferences`. -/
structure PrefRow where
  product : String
  unitsSold : ℚ
  revenue : ℚ
deriving DecidableEq, Repr

/-- `df.groupby('Product').agg(UnitsSold=sum Quantity, Revenue=sum Total)`. -/
def prefAgg (df : List SalesRecord) : List PrefRow :=
  (sortStrings (dropDuplicates (df.map SalesRecord.product))).map
    (fun p => ⟨p, sumQ (productGroup df p), sumT (productGroup df p)⟩)

/-- `DataManager.get_product_preferences` (lines 148-172). The `category`
argument is accepted and ignored, as in the source.
`sort_values(by := UnitsSold, ascending := False)` runs pandas' default
quicksort, whose order on equal-key rows is implementation-defined; the
model's stable insertion sort is one admissible outcome of it, and only
sort properties independent of the tie order are asserted about this
function. -/
def get_product_preferences (dm : DataManager)
    (date_range : Option (Date × Date)) (category : Option String)
    (branch : Option String) : List PrefRow × DataManager :=
  if dm.sales_data.isEmpty then ([], dm)
  else
    let df := branchFilter branch (rangeFilter date_range dm.sales_data)
    if df.isEmpty then ([], dm)
    else
      (List.insertionSort (fun a b : PrefRow => b.unitsSold ≤ a.unitsSold)
        (prefAgg df), dm)

/-- `DataManager.get_sales_distribution` (lines 174-188): the raw `Total`
column of the filtered rows; no empty-result guard after filtering. -/
def get_sales_distribution (dm : DataManager)
    (date_range : Option (Date × Date)) (branch : Option String)
    (category : Option String) : List ℚ × DataManager :=
  if dm.sales_data.isEmpty then ([], dm)
  else
    let df := branchFilter branch (rangeFilter date_range dm.sales_data)
    (df.map SalesRecord.total, dm)

/-! ## Concrete fixtures used by scenario proofs, counterexamples and
witnesses -/

def emptyDM : DataManager := ⟨[], .absent⟩

def d1 : Date := ⟨2024, 6, 1⟩

def d2 : Date := ⟨2024, 6, 2⟩

def milkRec : SalesRecord := ⟨d1, "Colombo", "Milk", 5, 150, 750⟩

def breadRec : SalesRecord := ⟨d2, "Kandy", "Bread", 10, 50, 500⟩

def scenarioDM : DataManager :=
  ⟨[milkRec, breadRec], encodeFile [milkRec, breadRec]⟩

/-- A fully valid raw row. -/
def vRow : RawRow :=
  ⟨.val d1, some "Colombo", some "Milk", some 5, some 150, some 750⟩

/-- Valid date and numerics, but the Branch cell is empty (`NaN`). -/
def nullBranchRow : RawRow :=
  ⟨.val d1, none, some "Milk", some 5, some 150, some 750⟩

/-- A present but unparseable Date cell. -/
def badDateRow : RawRow :=
  ⟨.invalid, some "Colombo", some "Milk", some 5, some 150, some 750⟩

/-- A missing Date cell (`NaN` → `NaT`), everything else present. -/
def natDateRow : RawRow :=
  ⟨.missing, some "Galle", some "Eggs", some 1, some 1, some 1⟩

def allColsTable (rows : List RawRow) : Table :=
  ⟨true, true, true, true, true, true, rows⟩

def nullBranchBatch : Table := allColsTable [nullBranchRow]

def badDateBatch : Table := allColsTable [badDateRow, vRow]

def goodBatch : Table := allColsTable [vRow, natDateRow]

def noneValidBatch : Table := allColsTable [natDateRow]

/-- The batch of the C2 scenario: all columns except Total. -/
def missingTotalBatch : Table :=
  ⟨true, true, true, true, true, false, [vRow]⟩

/-- The claim's notion of a valid batch row (C1, C9): date and the three
numeric fields coerce; nothing is asked of Branch and Product. -/
def claimRowValid (r : RawRow) : Bool :=
  (match r.date with | .val _ => true | _ => false) &&
    r.quantity.isSome && r.unitPrice.isSome && r.total.isSome

def zebraRec : SalesRecord := ⟨d1, "Colombo", "Zebra", 5, 1, 5⟩

def appleRec : SalesRecord := ⟨d1, "Colombo", "Apple", 5, 1, 5⟩

/-- Zebra is sold first; both products have the same units sold. -/
def prefCexDM : DataManager := ⟨[zebraRec, appleRec], .absent⟩


/-! ## Generic lemmas about the list combinators used in the embedding -/

theorem dropDupGo_mem {α : Type} [DecidableEq α] (x : α) :
    ∀ (l seen : List α), x ∈ dropDupGo seen l ↔ (x ∈ l ∧ x ∉ seen)
  | [], seen => by simp [dropDupGo]
  | y :: l, seen => by
    by_cases hy : y ∈ seen
    · rw [dropDupGo, if_pos hy, dropDupGo_mem x l seen]
      simp only [List.mem_cons]
      constructor
      · tauto
      · rintro ⟨rfl | h1, h2⟩
        · exact absurd hy h2
        · exact ⟨h1, h2⟩
    · rw [dropDupGo, if_neg hy]
      simp only [List.mem_cons, dropDupGo_mem x l (y :: seen)]
      by_cases hxy : x = y
      · subst hxy; tauto
      · tauto

theorem mem_dropDuplicates {α : Type} [DecidableEq α] {x : α} {l : List α} :
    x ∈ dropDuplicates l ↔ x ∈ l := by
  rw [dropDuplicates, dropDupGo_mem]
  simp

theorem dropDupGo_nodup {α : Type} [DecidableEq α] :
    ∀ (l seen : List α), (dropDupGo seen l).Nodup
  | [], seen => by simp [dropDupGo]
  | y :: l, seen => by
    by_cases hy : y ∈ seen
    · rw [dropDupGo, if_pos hy]
      exact dropDupGo_nodup l seen
    · rw [dropDupGo, if_neg hy]
      refine List.nodup_cons.2 ⟨fun hmem => ?_, dropDupGo_nodup l (y :: seen)⟩
      exact ((dropDupGo_mem y l (y :: seen)).1 hmem).2 (List.mem_cons_self _ _)

theorem dropDuplicates_nodup {α : Type} [DecidableEq α] (l : List α) :
    (dropDuplicates l).Nodup :=
  dropDupGo_nodup l []

theorem lookup_map_self {β : Type} (keys : List String) (g : String → β)
    (d : String) :
    (keys.map (fun k => (k, g k))).lookup d =
      if d ∈ keys then some (g d) else none := by
  induction keys with
  | nil => simp
  | cons k ks ih =>
    by_cases hk : k = d
    · subst hk
      simp [List.lookup]
    · have hbeq : (d == k) = false :=
        beq_eq_false_iff_ne.2 (fun h => hk h.symm)
      have hbeq' : (k == d) = false := beq_eq_false_iff_ne.2 hk
      rw [List.map_cons]
      simp only [List.lookup, hbeq, hbeq', ih, List.mem_cons]
      by_cases hd : d ∈ ks
      · simp [hd]
      · simp [hd, Ne.symm hk]

theorem filterMap_rowRecord_length :
    ∀ (l : List RawRow), (∀ r ∈ l, rowValid r = true) →
      (l.filterMap rowRecord).length = l.length
  | [], _ => rfl
  | r :: l, h => by
    have hr := h r (List.mem_cons_self _ _)
    have : (rowRecord r).isSome = true := by
      unfold rowValid at hr
      unfold rowRecord
      rcases r with ⟨d, b, p, q, u, t⟩
      cases d <;> cases b <;> cases p <;> cases q <;> cases u <;> cases t <;>
        simp_all
    rcases hsome : rowRecord r with _ | rec
    · rw [hsome] at this
      simp at this
    · rw [List.filterMap_cons, hsome]
      simp only [List.length_cons]
      rw [filterMap_rowRecord_length l (fun x hx => h x (List.mem_cons_of_mem _ hx))]

theorem rowValid_iff_isSome (r : RawRow) :
    rowValid r = true ↔ (rowRecord r).isSome = true := by
  unfold rowValid rowRecord
  rcases r with ⟨d, b, p, q, u, t⟩
  cases d <;> cases b <;> cases p <;> cases q <;> cases u <;> cases t <;> simp

/-! ## The comparison functions are total preorders -/

theorem charListLe_total : ∀ as bs, charListLe as bs = true ∨ charListLe bs as = true
  | [], _ => Or.inl rfl
  | _ :: _, [] => Or.inr rfl
  | c :: cs, d :: ds => by
    by_cases h1 : c.toNat < d.toNat
    · left; simp [charListLe, h1]
    · by_cases h2 : d.toNat < c.toNat
      · right; simp [charListLe, h1, h2]
      · have := charListLe_total cs ds
        rcases this with h | h
        · left; simp [charListLe, h1, h2, h]
        · right; simp [charListLe, h1, h2, h]

theorem charListLe_trans : ∀ as bs cs, charListLe as bs = true →
    charListLe bs cs = true → charListLe as cs = true
  | [], _, _, _, _ => rfl
  | a :: as, [], _, h, _ => by simp [charListLe] at h
  | _ :: _, _ :: _, [], _, h => by simp [charListLe] at h
  | a :: as, b :: bs, c :: cs, h1, h2 => by
    simp only [charListLe] at h1 h2 ⊢
    split_ifs at h1 h2 ⊢ with g1 g2 g3 g4 g5 g6 <;> try rfl
    all_goals try omega
    all_goals try exact charListLe_trans as bs cs h1 h2
    all_goals simp_all

theorem dateLe_total (a b : Date) : dateLe a b = true ∨ dateLe b a = true := by
  simp only [dateLe, decide_eq_true_eq]
  omega

theorem dateLe_trans {a b c : Date} (h1 : dateLe a b = true)
    (h2 : dateLe b c = true) : dateLe a c = true := by
  simp only [dateLe, decide_eq_true_eq] at h1 h2 ⊢
  omega

theorem sumQ_nil : sumQ [] = 0 := rfl

theorem sumU_nil : sumU [] = 0 := rfl

theorem sumT_nil : sumT [] = 0 := rfl

theorem branchFilter_nil (br : Option String) : branchFilter br [] = [] := by
  cases br <;> simp [branchFilter]

theorem rangeFilter_nil (dr : Option (Date × Date)) : rangeFilter dr [] = [] := by
  rcases dr with _ | ⟨s, e⟩ <;> simp [rangeFilter]

theorem yearFilter_nil (y : Option Nat) : yearFilter y [] = [] := by
  cases y <;> simp [yearFilter]

theorem monthFilter_nil (m : Option Nat) : monthFilter m [] = [] := by
  cases m <;> simp [monthFilter]

theorem sortStrings_mem {x : String} {l : List String} :
    x ∈ sortStrings l ↔ x ∈ l :=
  List.mem_insertionSort _

theorem mem_sortedKeys {p : String} {l : List String} :
    p ∈ sortStrings (dropDuplicates l) ↔ p ∈ l :=
  sortStrings_mem.trans mem_dropDuplicates

/-! ## Facts about the grouped aggregates -/

theorem lookup_groupDaySum (df : List SalesRecord) (d : String) :
    ((groupDaySum df).lookup d).getD 0 =
      sumT (df.filter (fun r => dayName r.date == d)) := by
  unfold groupDaySum
  rw [lookup_map_self]
  by_cases hd : d ∈ sortStrings (dropDuplicates (df.map (fun r => dayName r.date)))
  · simp [hd]
  · rw [if_neg hd]
    have hfil : df.filter (fun r => dayName r.date == d) = [] := by
      rw [List.filter_eq_nil_iff]
      intro r hr hbeq
      exact hd (mem_sortedKeys.2 (List.mem_map.2
        ⟨r, hr, beq_iff_eq.1 hbeq⟩))
    simp [hfil, sumT_nil]

theorem get_weekly_sales_eq (dm : DataManager) (s e : Date)
    (br : Option String) :
    (get_weekly_sales dm s e br).1 =
      weekDays.map (fun d =>
        (d, sumT ((branchFilter br (dm.sales_data.filter (inRange s e))).filter
              (fun r => dayName r.date == d)))) := by
  unfold get_weekly_sales
  by_cases h0 : dm.sales_data.isEmpty
  · rw [if_pos h0]
    have hnil : dm.sales_data = [] := List.isEmpty_iff.1 h0
    simp [hnil, zeroWeek, branchFilter_nil, sumT_nil]
  · rw [if_neg h0]
    simp only
    by_cases h1 : (branchFilter br (dm.sales_data.filter (inRange s e))).isEmpty
    · rw [if_pos h1]
      have hnil : branchFilter br (dm.sales_data.filter (inRange s e)) = [] :=
        List.isEmpty_iff.1 h1
      simp [zeroWeek, hnil, sumT_nil]
    · rw [if_neg h1]
      unfold reindexWeek
      exact List.map_congr_left (fun d _ => by rw [lookup_groupDaySum])

theorem monthlyAgg_spec (df : List SalesRecord) (g : MonthlyRow)
    (hg : g ∈ monthlyAgg df) :
    (∃ r ∈ df, r.product = g.product) ∧
    g.quantity = sumQ (productGroup df g.product) ∧
    g.unitPrice = sumU (productGroup df g.product) /
      ((productGroup df g.product).length : ℚ) ∧
    g.total = sumT (productGroup df g.product) := by
  unfold monthlyAgg at hg
  rcases List.mem_map.1 hg with ⟨p, hp, rfl⟩
  refine ⟨?_, rfl, rfl, rfl⟩
  rcases List.mem_map.1 (mem_sortedKeys.1 hp) with ⟨r, hr, hpr⟩
  exact ⟨r, hr, hpr⟩

theorem monthlyAgg_products (df : List SalesRecord) (p : String) :
    (∃ g ∈ monthlyAgg df, g.product = p) ↔ ∃ r ∈ df, r.product = p := by
  constructor
  · rintro ⟨g, hg, rfl⟩
    exact (monthlyAgg_spec df g hg).1
  · rintro ⟨r, hr, rfl⟩
    refine ⟨⟨r.product, sumQ (productGroup df r.product),
      sumU (productGroup df r.product) /
        ((productGroup df r.product).length : ℚ),
      sumT (productGroup df r.product)⟩, ?_, rfl⟩
    exact List.mem_map.2 ⟨r.product,
      mem_sortedKeys.2 (List.mem_map.2 ⟨r, hr, rfl⟩), rfl⟩

/-! ## C2 -/

/-- C2: a batch missing at least one of the six required columns makes
`add_data` return failure with the manager state (dataset and backing file)
and the caller's batch exactly as they were. -/
theorem C2_missing_column_append_fails (dm : DataManager) (b : Table)
    (h : requiredColsPresent b = false) :
    add_data dm b = (dm, false, b) := by
  simp [add_data, h]

/-- C2 witness: the spec's scenario, a batch with columns
Date, Branch, Product, Quantity, UnitPrice but no Total. -/
theorem C2_missing_column_witness :
    add_data emptyDM missingTotalBatch = (emptyDM, false, missingTotalBatch) :=
  C2_missing_column_append_fails emptyDM missingTotalBatch rfl

/-! ## C1 -/

/-- C1 counterexample. The claim counts as `valid_rows(B)` every row whose
date and three numeric fields coerce, and predicts success adding
`len(valid_rows(B))` records. Two concrete batches refute it:
`nullBranchBatch` has one such row (its Branch cell is `NaN`), yet
`add_data` drops the row (the `dropna` subset also contains Branch and
Product) and fails without touching the dataset; `badDateBatch` has one such
row as well, yet the unparseable date in its other row makes
`pd.to_datetime` raise, so `add_data` fails without touching anything. -/
theorem C1_counterexample :
    requiredColsPresent nullBranchBatch = true ∧
    (nullBranchBatch.rows.filter claimRowValid).length = 1 ∧
    add_data emptyDM nullBranchBatch =
      (emptyDM, false, { nullBranchBatch with rows := [] }) ∧
    requiredColsPresent badDateBatch = true ∧
    (badDateBatch.rows.filter claimRowValid).length = 1 ∧
    add_data emptyDM badDateBatch = (emptyDM, false, badDateBatch) := by
  decide

/-- C1 (amended): for a batch with all six required columns in which no
present Date cell is unparseable, `add_data` either succeeds, appends
exactly the valid rows (parsed date, non-null branch and product, coerced
numerics) and persists the full dataset to the backing file, or — when no
valid row remains — fails and leaves the manager unchanged. -/
theorem C1_append_contract (dm : DataManager) (b : Table)
    (hcols : requiredColsPresent b = true)
    (hdates : b.rows.any dateInvalid = false) :
    (b.rows.filter rowValid ≠ [] →
      (add_data dm b).2.1 = true ∧
      (add_data dm b).1.sales_data.length =
        dm.sales_data.length + (b.rows.filter rowValid).length ∧
      (add_data dm b).1.data_file =
        encodeFile ((add_data dm b).1.sales_data)) ∧
    (b.rows.filter rowValid = [] →
      (add_data dm b).1 = dm ∧ (add_data dm b).2.1 = false) := by
  have hval : ∀ r ∈ b.rows.filter rowValid, rowValid r = true :=
    fun r hr => (List.mem_filter.1 hr).2
  have hstep : ∀ (hie : (b.rows.filter rowValid).isEmpty = false),
      add_data dm b =
        (save_data { dm with sales_data :=
            dm.sales_data ++ (b.rows.filter rowValid).filterMap rowRecord },
         true, { b with rows := b.rows.filter rowValid }) := by
    intro hie
    simp [add_data, hcols, hdates, hie]
  constructor
  · intro hne
    have hie : (b.rows.filter rowValid).isEmpty = false := by
      cases hx : (b.rows.filter rowValid).isEmpty
      · rfl
      · exact absurd (List.isEmpty_iff.1 hx) hne
    rw [hstep hie]
    refine ⟨rfl, ?_, rfl⟩
    simp only [save_data]
    rw [List.length_append, filterMap_rowRecord_length _ hval]
  · intro hz
    have hie : (b.rows.filter rowValid).isEmpty = true := by
      rw [hz]; rfl
    simp [add_data, hcols, hdates, hie]

/-- C1 witness: a concrete batch with one valid row and one row whose date
cell is missing; `add_data` succeeds, the dataset grows by exactly one
record, and the result is persisted. -/
theorem C1_append_witness :
    (add_data emptyDM goodBatch).2.1 = true ∧
    (add_data emptyDM goodBatch).1.sales_data.length =
      emptyDM.sales_data.length + (goodBatch.rows.filter rowValid).length ∧
    (add_data emptyDM goodBatch).1.data_file =
      encodeFile ((add_data emptyDM goodBatch).1.sales_data) :=
  (C1_append_contract emptyDM goodBatch rfl rfl).1 (by decide)

/-! ## C10 -/

/-- C10 counterexample. The claim says every batch with the six required
columns comes back with its rows coerced and the failing rows removed. On
`badDateBatch` the date conversion raises before anything is assigned: the
caller's batch comes back untouched, still holding the unparseable row. -/
theorem C10_counterexample :
    requiredColsPresent badDateBatch = true ∧
    (add_data emptyDM badDateBatch).2.2 = badDateBatch ∧
    badDateRow ∈ (add_data emptyDM badDateBatch).2.2.rows ∧
    rowValid badDateRow = false ∧
    badDateBatch.rows.filter rowValid ≠ badDateBatch.rows := by
  decide

/-- C10 (amended): for a batch with the six required columns and no
unparseable Date cell, the caller's batch object comes back coerced in
place with every row failing coercion removed — also when `add_data` then
returns failure because no valid row remains. -/
theorem C10_batch_mutated_in_place (dm : DataManager) (b : Table)
    (hcols : requiredColsPresent b = true)
    (hdates : b.rows.any dateInvalid = false) :
    (add_data dm b).2.2 = { b with rows := b.rows.filter rowValid } ∧
    (b.rows.filter rowValid = [] → (add_data dm b).2.1 = false) := by
  constructor
  · by_cases hie : (b.rows.filter rowValid).isEmpty
    · simp [add_data, hcols, hdates, hie]
    · simp [add_data, hcols, hdates, hie]
  · intro hz
    have hie : (b.rows.filter rowValid).isEmpty = true := by rw [hz]; rfl
    simp [add_data, hcols, hdates, hie]

/-- C10 witness: a batch whose single row has a missing date is filtered to
empty in place while `add_data` reports failure. -/
theorem C10_batch_mutated_witness :
    (add_data emptyDM noneValidBatch).2.2 =
      { noneValidBatch with rows := noneValidBatch.rows.filter rowValid } ∧
    (add_data emptyDM noneValidBatch).2.1 = false :=
  ⟨(C10_batch_mutated_in_place emptyDM noneValidBatch rfl rfl).1,
   (C10_batch_mutated_in_place emptyDM noneValidBatch rfl rfl).2 (by decide)⟩

/-! ## C8 -/

theorem encode_rows_no_invalid (ds : List SalesRecord) :
    (ds.map recordRaw).any dateInvalid = false := by
  induction ds with
  | nil => rfl
  | cons r ds ih => simp [recordRaw, dateInvalid, ih]

theorem roundtrip_encode (ds : List SalesRecord) :
    load_data (encodeFile ds) = ds := by
  have hmap : (ds.map recordRaw).filterMap rowRecord = ds := by
    rw [List.filterMap_map]
    have hcomp : (rowRecord ∘ recordRaw) = some := by
      funext r; rfl
    rw [hcomp, List.filterMap_some]
  have hinv := encode_rows_no_invalid ds
  simp [load_data, load_frame, encodeFile, requiredColsPresent, hinv, hmap]

/-- C8: persisting a loaded dataset writes exactly the serialization of the
valid rows of the input file, and re-reading the persisted file reproduces
the same logical rows in the same order — hence the same set of rows, with
everything dropped during validation excluded. -/
theorem C8_load_persist_roundtrip (f : BackingFile) :
    (save_data (DataManager.init f)).data_file = encodeFile (load_data f) ∧
    load_data ((save_data (DataManager.init f)).data_file) = load_data f :=
  ⟨rfl, roundtrip_encode (load_data f)⟩

/-! ## C9 -/

theorem filterMap_rowRecord_length_countP :
    ∀ l : List RawRow, (l.filterMap rowRecord).length = l.countP rowValid
  | [] => rfl
  | r :: l => by
    rw [List.filterMap_cons, List.countP_cons]
    by_cases h : rowValid r = true
    · have hs := (rowValid_iff_isSome r).1 h
      rcases hrec : rowRecord r with _ | rec
      · rw [hrec] at hs; simp at hs
      · simp [h, filterMap_rowRecord_length_countP l]
    · have hs : rowRecord r = none := by
        rcases hrec : rowRecord r with _ | rec
        · rfl
        · exact absurd ((rowValid_iff_isSome r).2 (by rw [hrec]; rfl)) h
      have h' : rowValid r = false := by
        cases hx : rowValid r
        · rfl
        · exact absurd hx h
      simp [hs, h', filterMap_rowRecord_length_countP l]

/-- C9 counterexample. The claim says a readable file yields exactly the
rows whose date and three numeric fields coerce. `nullBranchBatch` as the
backing table has one such row, but its Branch cell is `NaN`, the `dropna`
subset also contains Branch and Product, and the loaded dataset is empty. -/
theorem C9_counterexample :
    (nullBranchBatch.rows.filter claimRowValid).length = 1 ∧
    load_data (.table nullBranchBatch) = [] := by
  decide

/-- C9 (amended): loading never raises (it is a total function); an absent
file, unreadable content, or a table without the six required columns gives
the empty dataset; a readable table with the six columns whose present
Date cells all parse yields exactly the rows whose date parses, whose
branch and product are non-null, and whose three numeric fields coerce —
everything else is dropped. When some Date cell fails to parse, the whole
Date column stays text and nothing is dropped for date unparseability: the
returned frame keeps every row whose six cells are non-null, a state
outside the typed record model. -/
theorem C9_load_total_contract :
    load_data .absent = [] ∧
    load_data .corrupt = [] ∧
    (∀ t : Table, requiredColsPresent t = false →
      load_data (.table t) = []) ∧
    (∀ t : Table, requiredColsPresent t = true →
      t.rows.any dateInvalid = false →
      (load_data (.table t)).length = t.rows.countP rowValid ∧
      ∀ rec : SalesRecord,
        rec ∈ load_data (.table t) ↔
          ∃ raw ∈ t.rows, rowRecord raw = some rec) ∧
    (∀ t : Table, requiredColsPresent t = true →
      t.rows.any dateInvalid = true →
      load_frame (.table t) = .textDates (t.rows.filter rowNonNull)) := by
  refine ⟨rfl, rfl, fun t h => by simp [load_data, load_frame, h],
    fun t h hd => ⟨?_, ?_⟩, fun t h hd => by simp [load_frame, h, hd]⟩
  · simp [load_data, load_frame, h, hd, filterMap_rowRecord_length_countP]
  · intro rec
    simp [load_data, load_frame, h, hd, List.mem_filterMap]

/-! ## C7 -/

theorem monthlyFiltered_of_empty (dm : DataManager)
    (h : dm.sales_data = []) (br : Option String) (y m : Option Nat) :
    monthlyFiltered dm br y m = [] := by
  unfold monthlyFiltered
  rw [h, branchFilter_nil, yearFilter_nil, monthFilter_nil]

/-- C7: every query-layer operation returns the manager state unchanged
(`self.sales_data` and the backing file are never written), and filters that
match nothing produce the operation's defined empty result shape rather
than an error. -/
theorem C7_queries_pure (dm : DataManager) :
    (∀ br y m, (get_monthly_sales dm br y m).2 = dm ∧
      (monthlyFiltered dm br y m = [] →
        (get_monthly_sales dm br y m).1 = [])) ∧
    (∀ p, (get_product_price_history dm p).2 = dm ∧
      (dm.sales_data.filter (fun r => r.product == p) = [] →
        (get_product_price_history dm p).1 = [])) ∧
    (∀ s e br, (get_weekly_sales dm s e br).2 = dm ∧
      (branchFilter br (dm.sales_data.filter (inRange s e)) = [] →
        (get_weekly_sales dm s e br).1 = zeroWeek)) ∧
    (∀ dr cat br, (get_product_preferences dm dr cat br).2 = dm ∧
      (branchFilter br (rangeFilter dr dm.sales_data) = [] →
        (get_product_preferences dm dr cat br).1 = [])) ∧
    (∀ dr br cat, (get_sales_distribution dm dr br cat).2 = dm ∧
      (branchFilter br (rangeFilter dr dm.sales_data) = [] →
        (get_sales_distribution dm dr br cat).1 = [])) := by
  refine ⟨fun br y m => ⟨?_, ?_⟩, fun p => ⟨?_, ?_⟩, fun s e br => ⟨?_, ?_⟩,
    fun dr cat br => ⟨?_, ?_⟩, fun dr br cat => ⟨?_, ?_⟩⟩
  · simp only [get_monthly_sales]
    split_ifs <;> rfl
  · intro h
    simp only [get_monthly_sales]
    split_ifs with h1 h2
    · rfl
    · rfl
    · exact absurd (by rw [h]; rfl) h2
  · unfold get_product_price_history
    split_ifs <;> rfl
  · intro h
    unfold get_product_price_history
    split_ifs with h1
    · rfl
    · simp [h, dropDuplicates, dropDupGo, List.insertionSort]
  · simp only [get_weekly_sales]
    split_ifs <;> rfl
  · intro h
    rw [get_weekly_sales_eq, h]
    simp [zeroWeek, sumT_nil]
  · simp only [get_product_preferences]
    split_ifs <;> rfl
  · intro h
    simp only [get_product_preferences]
    split_ifs with h1 h2
    · rfl
    · rfl
    · exact absurd (by rw [h]; rfl) h2
  · simp only [get_sales_distribution]
    split_ifs <;> rfl
  · intro h
    simp only [get_sales_distribution]
    split_ifs with h1
    · rfl
    · simp [h]

/-! ## C3 -/

/-- C3: for every dataset, inclusive date range and branch argument, the
weekly-sales result has exactly 7 rows carrying the canonical day names
Monday..Sunday in that fixed order, and each day's total is the sum of
`Total` over the rows in range (and branch) falling on that day — zero when
no row matches, also when the whole filtered frame is empty. -/
theorem C3_weekly_sales_shape (dm : DataManager) (s e : Date)
    (br : Option String) :
    (get_weekly_sales dm s e br).1.length = 7 ∧
    (get_weekly_sales dm s e br).1.map Prod.fst = weekDays ∧
    (get_weekly_sales dm s e br).1 =
      weekDays.map (fun d =>
        (d, sumT ((branchFilter br (dm.sales_data.filter (inRange s e))).filter
          (fun r => dayName r.date == d)))) := by
  refine ⟨?_, ?_, get_weekly_sales_eq dm s e br⟩
  · rw [get_weekly_sales_eq]
    simp [weekDays]
  · rw [get_weekly_sales_eq]
    rfl

/-! ## C5 -/

/-- C5: every row of the price-history result comes from a dataset row whose
product matches exactly, projected to (date, unit price); the result has no
duplicate (date, price) pair; and its dates are sorted non-decreasingly. -/
theorem C5_price_history_spec (dm : DataManager) (pname : String) :
    (∀ x ∈ (get_product_price_history dm pname).1,
      ∃ r ∈ dm.sales_data, r.product = pname ∧ x = (r.date, r.unitPrice)) ∧
    (get_product_price_history dm pname).1.Nodup ∧
    (get_product_price_history dm pname).1.Pairwise
      (fun a b => dateLe a.1 b.1 = true) := by
  unfold get_product_price_history
  by_cases h0 : dm.sales_data.isEmpty
  · rw [if_pos h0]
    exact ⟨by simp, List.nodup_nil, List.Pairwise.nil⟩
  · rw [if_neg h0]
    simp only
    refine ⟨?_, ?_, ?_⟩
    · intro x hx
      have hx' := mem_dropDuplicates.1 ((List.mem_insertionSort _).1 hx)
      rcases List.mem_map.1 hx' with ⟨r, hr, rfl⟩
      have hrf := List.mem_filter.1 hr
      exact ⟨r, hrf.1, beq_iff_eq.1 hrf.2, rfl⟩
    · exact (List.perm_insertionSort _ _).nodup_iff.2 (dropDuplicates_nodup _)
    · haveI : IsTotal (Date × ℚ) (fun a b => dateLe a.1 b.1 = true) :=
        ⟨fun a b => dateLe_total a.1 b.1⟩
      haveI : IsTrans (Date × ℚ) (fun a b => dateLe a.1 b.1 = true) :=
        ⟨fun _ _ _ h1 h2 => dateLe_trans h1 h2⟩
      exact List.sorted_insertionSort _ _

/-! ## C6 -/

/-- C6: monthly sales groups the filtered rows by product; every output
group carries the sum of Quantity, the mean of UnitPrice and the sum of
Total of its product's rows, a product appears in the output exactly when
it occurs in the filtered rows, and on the spec's two-row June-2024 dataset
the result is precisely the Bread and Milk groups. -/
theorem C6_monthly_sales_spec :
    (∀ (dm : DataManager) (br : Option String) (y m : Option Nat),
      (∀ g ∈ (get_monthly_sales dm br y m).1,
        (∃ r ∈ monthlyFiltered dm br y m, r.product = g.product) ∧
        g.quantity = sumQ (productGroup (monthlyFiltered dm br y m) g.product) ∧
        g.unitPrice = sumU (productGroup (monthlyFiltered dm br y m) g.product) /
          ((productGroup (monthlyFiltered dm br y m) g.product).length : ℚ) ∧
        g.total = sumT (productGroup (monthlyFiltered dm br y m) g.product)) ∧
      (∀ p, (∃ g ∈ (get_monthly_sales dm br y m).1, g.product = p) ↔
        ∃ r ∈ monthlyFiltered dm br y m, r.product = p)) ∧
    (get_monthly_sales scenarioDM (some "All Branches") (some 2024)
      (some 6)).1 = [⟨"Bread", 10, 50, 500⟩, ⟨"Milk", 5, 150, 750⟩] := by
  constructor
  · intro dm br y m
    simp only [get_monthly_sales]
    split_ifs with h1 h2
    · have hf : monthlyFiltered dm br y m = [] :=
        monthlyFiltered_of_empty dm (List.isEmpty_iff.1 h1) br y m
      refine ⟨fun g hg => by simp at hg, fun p => ?_⟩
      rw [hf]
      constructor
      · rintro ⟨g, hg, _⟩; simp at hg
      · rintro ⟨r, hr, _⟩; simp at hr
    · have hf : monthlyFiltered dm br y m = [] := List.isEmpty_iff.1 h2
      refine ⟨fun g hg => by simp at hg, fun p => ?_⟩
      rw [hf]
      constructor
      · rintro ⟨g, hg, _⟩; simp at hg
      · rintro ⟨r, hr, _⟩; simp at hr
    · exact ⟨fun g hg => monthlyAgg_spec _ g hg,
        fun p => monthlyAgg_products _ p⟩
  · have hms : ("Milk" : String) ≠ "Bread" := by decide
    have hbm : ("Bread" : String) ≠ "Milk" := by decide
    have hsl : stringLe "Milk" "Bread" = false := by decide
    norm_num [get_monthly_sales, monthlyFiltered, branchFilter, yearFilter,
      monthFilter, monthlyAgg, sortStrings, dropDuplicates, dropDupGo,
      productGroup, sumQ, sumU, sumT, scenarioDM, milkRec, breadRec, d1, d2,
      List.insertionSort, List.orderedInsert, hsl, List.filter_cons,
      List.filter_nil, hms, hbm]

/-! ## C4 -/

/-- C4 counterexample. On a dataset whose rows are Zebra then Apple with
equal units sold, the claim's stable-by-input-order tie-break demands the
output order Zebra, Apple. The code's `groupby` sorts the group keys, so
the result lists Apple first: the products tie (both rows show 5 units),
Zebra occupies the earlier input position, yet the output is not in input
order. -/
theorem C4_counterexample :
    (get_product_preferences prefCexDM none none none).1 =
      [⟨"Apple", 5, 5⟩, ⟨"Zebra", 5, 5⟩] ∧
    prefCexDM.sales_data.map SalesRecord.product = ["Zebra", "Apple"] ∧
    ¬ (get_product_preferences prefCexDM none none none).1.map
        PrefRow.product = ["Zebra", "Apple"] := by
  have h2 : ("Zebra" : String) ≠ "Apple" := by decide
  have h3 : ("Apple" : String) ≠ "Zebra" := by decide
  have h4 : stringLe "Zebra" "Apple" = false := by decide
  have heq : (get_product_preferences prefCexDM none none none).1 =
      [⟨"Apple", 5, 5⟩, ⟨"Zebra", 5, 5⟩] := by
    norm_num [get_product_preferences, branchFilter, rangeFilter, prefAgg,
      sortStrings, dropDuplicates, dropDupGo, productGroup, sumQ, sumT,
      prefCexDM, zebraRec, appleRec, d1, List.insertionSort,
      List.orderedInsert, h2, h3, h4, List.filter_cons, List.filter_nil]
  refine ⟨heq, by decide, ?_⟩
  rw [heq]
  decide

/-- C4 (amended): the product-preference result is sorted descending by
units sold. The relative order of products with equal units sold is only
implementation-defined — `sort_values` uses a quicksort that pandas does
not document as stable — so nothing beyond the descending order is
asserted; in particular the order is not the input first-occurrence order
the claim states. -/
theorem C4_pref_sorted_desc (dm : DataManager) (dr : Option (Date × Date))
    (cat br : Option String) :
    (get_product_preferences dm dr cat br).1.Pairwise
      (fun a b => b.unitsSold ≤ a.unitsSold) := by
  simp only [get_product_preferences]
  split_ifs with h1 h2
  · exact List.Pairwise.nil
  · exact List.Pairwise.nil
  · haveI : IsTotal PrefRow (fun a b : PrefRow => b.unitsSold ≤ a.unitsSold) :=
      ⟨fun a b => le_total b.unitsSold a.unitsSold⟩
    haveI : IsTrans PrefRow (fun a b : PrefRow => b.unitsSold ≤ a.unitsSold) :=
      ⟨fun _ _ _ hab hbc => le_trans hbc hab⟩
    exact List.sorted_insertionSort
      (fun a b : PrefRow => b.unitsSold ≤ a.unitsSold)
      (prefAgg (branchFilter br (rangeFilter dr dm.sales_data)))
